import Mathlib

/-!
Verification of the employee birthday / anniversary email automation system
(`automation_email.py`, `card_generation.py`): record loading, calendar-event
matching, hex-color decoding, font-fallback resolution, the text compositor's
centering math, and the per-run statistics accumulator.

Each Python function is shallowly embedded as an executable Lean definition
translated from the source; theorems below state and settle the specified
properties.
-/

namespace AutomatedEmail

/-- A calendar date as carried by a parsed pandas `Timestamp` (year, month,
day; the time-of-day component is irrelevant to every property here). -/
structure Date where
  year : Nat
  month : Nat
  day : Nat
  deriving DecidableEq, Repr

/-- Gregorian leap-year rule (as implemented by Python's `datetime`). -/
def isLeapYear (y : Nat) : Bool :=
  (y % 4 == 0 && y % 100 != 0) || y % 400 == 0

/-- Number of days of month `m` in year `y` (Gregorian calendar). -/
def daysInMonth (y m : Nat) : Nat :=
  if m == 2 then (if isLeapYear y then 29 else 28)
  else if m == 4 || m == 6 || m == 9 || m == 11 then 30
  else 31

/-- A real calendar date: `datetime.date.today()` always satisfies this. -/
def Date.Valid (d : Date) : Prop :=
  1 ≤ d.month ∧ d.month ≤ 12 ∧ 1 ≤ d.day ∧ d.day ≤ daysInMonth d.year d.month

instance (d : Date) : Decidable d.Valid := by
  unfold Date.Valid; infer_instance

/-- One row of the employee DataFrame after `load_employee_data` has coerced
the date columns with `pd.to_datetime(..., errors='coerce')`: an unparseable
or missing date has become `NaT`, modelled as `none`. -/
structure EmployeeRecord where
  first_name : String
  last_name : String
  email : String
  birthday : Option Date
  anniversary : Option Date
  deriving DecidableEq, Repr

/-- The row predicate of the birthday filter
`(df['birthday'].dt.month == today.month) & (df['birthday'].dt.day == today.day) & (df['birthday'].notna())`:
on a `NaT` (`none`) birthday both equality comparisons are false, so the row
is kept exactly when the field is present and its month and day equal
today's. -/
def birthdayPred (today : Date) (r : EmployeeRecord) : Bool :=
  match r.birthday with
  | some d => d.month == today.month && d.day == today.day
  | none => false

/-- The `birthday_employees` selection in `check_and_send_birthday_emails`
(and `find_birthdays_today`): a pandas boolean-mask filter, which keeps
matching rows in their original order. -/
def birthdayMatches (records : List EmployeeRecord) (today : Date) :
    List EmployeeRecord :=
  records.filter (birthdayPred today)

/-- The row predicate of the anniversary filter in
`check_and_send_anniversary_emails`, analogous to `birthdayPred`. -/
def anniversaryPred (today : Date) (r : EmployeeRecord) : Bool :=
  match r.anniversary with
  | some d => d.month == today.month && d.day == today.day
  | none => false

/-- The `anniversary_employees` selection in
`check_and_send_anniversary_emails`. -/
def anniversaryMatches (records : List EmployeeRecord) (today : Date) :
    List EmployeeRecord :=
  records.filter (anniversaryPred today)

/-- C1: birthday (resp. anniversary) matches are exactly the records whose
birthday (resp. anniversary) field is present with month and day equal to
today's, year ignored; matches keep the input's relative order (they form a
sublist), and a record whose field is `none` is never matched on it. -/
theorem matcher_exact_and_order_preserving
    (records : List EmployeeRecord) (today : Date) :
    (birthdayMatches records today).Sublist records ∧
    (anniversaryMatches records today).Sublist records ∧
    (∀ r, r ∈ birthdayMatches records today ↔
      r ∈ records ∧ ∃ d, r.birthday = some d ∧
        d.month = today.month ∧ d.day = today.day) ∧
    (∀ r, r ∈ anniversaryMatches records today ↔
      r ∈ records ∧ ∃ d, r.anniversary = some d ∧
        d.month = today.month ∧ d.day = today.day) ∧
    (∀ r, r.birthday = none → r ∉ birthdayMatches records today) ∧
    (∀ r, r.anniversary = none → r ∉ anniversaryMatches records today) := by
  refine ⟨List.filter_sublist _, List.filter_sublist _, ?_, ?_, ?_, ?_⟩
  · intro r
    rw [birthdayMatches, List.mem_filter]
    constructor
    · rintro ⟨hm, hp⟩
      refine ⟨hm, ?_⟩
      unfold birthdayPred at hp
      cases hb : r.birthday with
      | none => rw [hb] at hp; exact absurd hp (by simp)
      | some d =>
        rw [hb] at hp
        simp only [Bool.and_eq_true, beq_iff_eq] at hp
        exact ⟨d, rfl, hp.1, hp.2⟩
    · rintro ⟨hm, d, hd, h1, h2⟩
      refine ⟨hm, ?_⟩
      unfold birthdayPred
      rw [hd]
      simp [h1, h2]
  · intro r
    rw [anniversaryMatches, List.mem_filter]
    constructor
    · rintro ⟨hm, hp⟩
      refine ⟨hm, ?_⟩
      unfold anniversaryPred at hp
      cases hb : r.anniversary with
      | none => rw [hb] at hp; exact absurd hp (by simp)
      | some d =>
        rw [hb] at hp
        simp only [Bool.and_eq_true, beq_iff_eq] at hp
        exact ⟨d, rfl, hp.1, hp.2⟩
    · rintro ⟨hm, d, hd, h1, h2⟩
      refine ⟨hm, ?_⟩
      unfold anniversaryPred
      rw [hd]
      simp [h1, h2]
  · intro r hb hmem
    rw [birthdayMatches, List.mem_filter] at hmem
    have := hmem.2
    rw [birthdayPred, hb] at this
    exact absurd this (by simp)
  · intro r ha hmem
    rw [anniversaryMatches, List.mem_filter] at hmem
    have := hmem.2
    rw [anniversaryPred, ha] at this
    exact absurd this (by simp)

/-- Witness for C1: on a concrete roster and date 2024-06-09, the matcher
keeps exactly the two records whose birthday month/day is 06-09 (in input
order) and the record with an absent birthday is not among them. -/
theorem matcher_exact_and_order_preserving_witness :
    let john : EmployeeRecord :=
      ⟨"John", "Doe", "john@x.com", some ⟨1990, 6, 9⟩, some ⟨2018, 5, 20⟩⟩
    let alice : EmployeeRecord :=
      ⟨"Alice", "Brown", "alice@x.com", none, none⟩
    let bob : EmployeeRecord :=
      ⟨"Bob", "Johnson", "bob@x.com", some ⟨1992, 6, 9⟩, some ⟨2020, 10, 12⟩⟩
    (john ∈ birthdayMatches [john, alice, bob] ⟨2024, 6, 9⟩) ∧
    (alice ∉ birthdayMatches [john, alice, bob] ⟨2024, 6, 9⟩) ∧
    (birthdayMatches [john, alice, bob] ⟨2024, 6, 9⟩).Sublist
      [john, alice, bob] := by
  intro john alice bob
  refine ⟨?_, ?_, ?_⟩
  · exact (matcher_exact_and_order_preserving [john, alice, bob]
      ⟨2024, 6, 9⟩).2.2.1 john |>.mpr ⟨by simp, ⟨1990, 6, 9⟩, rfl, rfl, rfl⟩
  · exact (matcher_exact_and_order_preserving [john, alice, bob]
      ⟨2024, 6, 9⟩).2.2.2.2.1 alice rfl
  · exact (matcher_exact_and_order_preserving [john, alice, bob]
      ⟨2024, 6, 9⟩).1

/-- C6: a record whose birthday is February 29 is never matched when `today`
is a real calendar date in a non-leap year, since no such `today` can have
month 2 and day 29. -/
theorem feb29_birthday_never_matches_in_nonleap_year
    (records : List EmployeeRecord) (today : Date)
    (hv : today.Valid) (hl : isLeapYear today.year = false)
    (r : EmployeeRecord) (y : Nat) (hb : r.birthday = some ⟨y, 2, 29⟩) :
    r ∉ birthdayMatches records today := by
  intro hmem
  rw [birthdayMatches, List.mem_filter, birthdayPred, hb] at hmem
  have hp := hmem.2
  simp only [Bool.and_eq_true, beq_iff_eq] at hp
  obtain ⟨h2, h29⟩ := hp
  obtain ⟨_, _, _, hday⟩ := hv
  rw [← h29] at hday
  rw [← h2, daysInMonth] at hday
  simp only [beq_self_eq_true, if_true] at hday
  rw [hl] at hday
  simp at hday

/-- Witness for C6: the employee with birthday 1992-02-29 is matched neither
on 2023-02-28 nor on 2023-03-01 (2023 is not a leap year). -/
theorem feb29_birthday_never_matches_in_nonleap_year_witness :
    let emp : EmployeeRecord :=
      ⟨"Eve", "Leap", "eve@x.com", some ⟨1992, 2, 29⟩, none⟩
    (emp ∉ birthdayMatches [emp] ⟨2023, 2, 28⟩) ∧
    (emp ∉ birthdayMatches [emp] ⟨2023, 3, 1⟩) := by
  intro emp
  constructor
  · exact feb29_birthday_never_matches_in_nonleap_year [emp] ⟨2023, 2, 28⟩
      (by decide) (by decide) emp 1992 rfl
  · exact feb29_birthday_never_matches_in_nonleap_year [emp] ⟨2023, 3, 1⟩
      (by decide) (by decide) emp 1992 rfl

/-- The dictionary built for each matched row by `find_birthdays_today` in
`card_generation.py`: name fields, the parsed birthday, and
`age = today.year - employee['birthday'].year` (naive year subtraction;
`Int`-valued since Python subtraction is signed). -/
structure BirthdayInfo where
  first_name : String
  last_name : String
  email : String
  birthday : Date
  age : Int
  deriving DecidableEq, Repr

/-- `find_birthdays_today` (`card_generation.py`): filter the rows matching
today, then build one info dictionary per matched row. A matched row always
carries a parsed (`some`) birthday, so the inner `Option.map` never drops a
row. -/
def find_birthdays_today (records : List EmployeeRecord) (today : Date) :
    List BirthdayInfo :=
  (birthdayMatches records today).filterMap (fun r =>
    r.birthday.map (fun d =>
      ⟨r.first_name, r.last_name, r.email, d, (today.year : Int) - d.year⟩))

/-- The `anniversaries_today` stats entry appended for each matched row by
`check_and_send_anniversary_emails`: `name`, `email`, and
`years = today.year - employee['anniversary'].year`. -/
structure AnniversaryInfo where
  name : String
  email : String
  years : Int
  deriving DecidableEq, Repr

/-- The list of `anniversaries_today` entries produced by the loop of
`check_and_send_anniversary_emails` over the matched rows. -/
def anniversaries_today_entries (records : List EmployeeRecord)
    (today : Date) : List AnniversaryInfo :=
  (anniversaryMatches records today).filterMap (fun r =>
    r.anniversary.map (fun d =>
      ⟨r.first_name ++ " " ++ r.last_name, r.email,
        (today.year : Int) - d.year⟩))

/-- C5: every matched event carries the naive year subtraction: each
birthday info has `age = today.year - birthday.year`, each anniversary
entry has `years = today.year - anniversary.year`, and conversely every
matching record contributes its info with exactly that age. -/
theorem derived_counts_are_naive_year_subtraction
    (records : List EmployeeRecord) (today : Date) :
    (∀ info ∈ find_birthdays_today records today,
      ∃ r ∈ records, r.birthday = some info.birthday ∧
        info.birthday.month = today.month ∧ info.birthday.day = today.day ∧
        info.age = (today.year : Int) - info.birthday.year) ∧
    (∀ e ∈ anniversaries_today_entries records today,
      ∃ r ∈ records, ∃ d, r.anniversary = some d ∧
        d.month = today.month ∧ d.day = today.day ∧
        e.years = (today.year : Int) - d.year) ∧
    (∀ r ∈ records, ∀ d, r.birthday = some d →
      d.month = today.month → d.day = today.day →
      (⟨r.first_name, r.last_name, r.email, d,
        (today.year : Int) - d.year⟩ : BirthdayInfo) ∈
        find_birthdays_today records today) := by
  refine ⟨?_, ?_, ?_⟩
  · intro info hmem
    rw [find_birthdays_today, List.mem_filterMap] at hmem
    obtain ⟨r, hr, hf⟩ := hmem
    rw [birthdayMatches, List.mem_filter] at hr
    cases hb : r.birthday with
    | none => rw [hb] at hf; exact absurd hf (by simp)
    | some d =>
      rw [hb] at hf
      simp only [Option.map_some', Option.some.injEq] at hf
      have hp := hr.2
      rw [birthdayPred, hb] at hp
      simp only [Bool.and_eq_true, beq_iff_eq] at hp
      refine ⟨r, hr.1, ?_⟩
      rw [← hf]
      exact ⟨hb, hp.1, hp.2, rfl⟩
  · intro e hmem
    rw [anniversaries_today_entries, List.mem_filterMap] at hmem
    obtain ⟨r, hr, hf⟩ := hmem
    rw [anniversaryMatches, List.mem_filter] at hr
    cases ha : r.anniversary with
    | none => rw [ha] at hf; exact absurd hf (by simp)
    | some d =>
      rw [ha] at hf
      simp only [Option.map_some', Option.some.injEq] at hf
      have hp := hr.2
      rw [anniversaryPred, ha] at hp
      simp only [Bool.and_eq_true, beq_iff_eq] at hp
      refine ⟨r, hr.1, d, ha, hp.1, hp.2, ?_⟩
      rw [← hf]
  · intro r hr d hb h1 h2
    rw [find_birthdays_today, List.mem_filterMap]
    refine ⟨r, ?_, ?_⟩
    · rw [birthdayMatches, List.mem_filter]
      refine ⟨hr, ?_⟩
      rw [birthdayPred, hb]
      simp [h1, h2]
    · rw [hb]
      simp

/-- Witness for C5: the spec scenario — birthday 1990-01-01, today
2024-01-01 — yields exactly one match whose age is 34, and that match is
certified by the theorem to use naive year subtraction. -/
theorem derived_counts_are_naive_year_subtraction_witness :
    let john : EmployeeRecord :=
      ⟨"John", "Doe", "john@x.com", some ⟨1990, 1, 1⟩, none⟩
    find_birthdays_today [john] ⟨2024, 1, 1⟩ =
      [⟨"John", "Doe", "john@x.com", ⟨1990, 1, 1⟩, 34⟩] ∧
    (⟨"John", "Doe", "john@x.com", ⟨1990, 1, 1⟩,
      (2024 : Int) - 1990⟩ : BirthdayInfo) ∈
      find_birthdays_today [john] ⟨2024, 1, 1⟩ := by
  intro john
  refine ⟨by decide, ?_⟩
  exact (derived_counts_are_naive_year_subtraction [john] ⟨2024, 1, 1⟩).2.2
    john (by simp) ⟨1990, 1, 1⟩ rfl rfl rfl

/-- Value of a hexadecimal digit as accepted by Python `int(-, 16)`:
`0`-`9`, `a`-`f`, `A`-`F`; `none` otherwise. -/
def hexDigitVal? (c : Char) : Option Nat :=
  if '0' ≤ c ∧ c ≤ '9' then some (c.toNat - '0'.toNat)
  else if 'a' ≤ c ∧ c ≤ 'f' then some (c.toNat - 'a'.toNat + 10)
  else if 'A' ≤ c ∧ c ≤ 'F' then some (c.toNat - 'A'.toNat + 10)
  else none

/-- ASCII whitespace, which Python `int(-, 16)` strips around the digits. -/
def isPySpace (c : Char) : Bool :=
  c == ' ' || c == '\t' || c == '\n' || c == '\r' ||
  c == Char.ofNat 11 || c == Char.ofNat 12

/-- Python `int(s, 16)` restricted to the two-character slices taken by
`hex_to_rgb` (ASCII input): either two hex digits, or a single hex digit
preceded by a sign or padded by whitespace on one side; `none` models the
`ValueError` that every other two-character string raises. -/
def pyIntHex2 (c₀ c₁ : Char) : Option Int :=
  match hexDigitVal? c₀, hexDigitVal? c₁ with
  | some d₀, some d₁ => some (16 * (d₀ : Int) + (d₁ : Int))
  | some d₀, none => if isPySpace c₁ then some (d₀ : Int) else none
  | none, some d₁ =>
      if c₀ == '+' || isPySpace c₀ then some (d₁ : Int)
      else if c₀ == '-' then some (-(d₁ : Int))
      else none
  | none, none => none

/-- The `int(hex[0:2],16), int(hex[2:4],16), int(hex[4:6],16)` step of
`hex_to_rgb`, applied to a six-character list; a `ValueError` from any slice
is caught by the surrounding handler and yields black plus a logged warning
(the `Bool`). -/
def parseSlices (cs : List Char) : (Int × Int × Int) × Bool :=
  match pyIntHex2 (cs.getD 0 ' ') (cs.getD 1 ' '),
      pyIntHex2 (cs.getD 2 ' ') (cs.getD 3 ' '),
      pyIntHex2 (cs.getD 4 ' ') (cs.getD 5 ' ') with
  | some r, some g, some b => ((r, g, b), false)
  | _, _, _ => ((0, 0, 0), true)

/-- `hex_to_rgb` (`automation_email.py`): strip all leading `#` characters,
double each character of a 3-character form, reject (black + warning) any
other length that is not 6, and otherwise parse the three 2-character
slices; any exception is caught and yields black with a warning. -/
def hex_to_rgb (s : String) : (Int × Int × Int) × Bool :=
  let cs := s.toList.dropWhile (fun c => c == '#')
  if cs.length == 3 then parseSlices (cs.flatMap (fun c => [c, c]))
  else if cs.length != 6 then ((0, 0, 0), true)
  else parseSlices cs

theorem hexDigitVal_ne_hash {c : Char} {v : Nat}
    (h : hexDigitVal? c = some v) : (c == '#') = false := by
  cases hc : c == '#'
  · rfl
  · rw [beq_iff_eq] at hc
    subst hc
    rw [show hexDigitVal? '#' = none from by decide] at h
    cases h

/-- C2 counterexample: `hex_to_rgb "bad"` does not return black — `'b'`,
`'a'`, `'d'` are hex digits, so the 3-character form doubles to `"bbaadd"`
and decodes to `(187, 170, 221)` with no warning. -/
theorem hex_to_rgb_bad_is_not_black :
    hex_to_rgb "bad" = ((187, 170, 221), false) ∧
    (hex_to_rgb "bad").1 ≠ ((0 : Int), (0 : Int), (0 : Int)) := by
  constructor
  · decide
  · decide

/-- C2 (amended): hex decoding never raises (it is total, the `Bool`
recording the logged warning): a string of 6 hex digits decodes to its RGB
triple, a string of 3 hex digits doubles each digit (value `17·d`), leading
`#` characters are ignored, any other length yields black plus a warning,
`hex_to_rgb "#FFFFFF" = (255,255,255)`, and — since `'b'`, `'a'`, `'d'` are
hex digits — `hex_to_rgb "bad" = (187,170,221)`, not black. -/
theorem hex_to_rgb_spec
    : (∀ c₀ c₁ c₂ c₃ c₄ c₅ v₀ v₁ v₂ v₃ v₄ v₅,
        hexDigitVal? c₀ = some v₀ → hexDigitVal? c₁ = some v₁ →
        hexDigitVal? c₂ = some v₂ → hexDigitVal? c₃ = some v₃ →
        hexDigitVal? c₄ = some v₄ → hexDigitVal? c₅ = some v₅ →
        hex_to_rgb (String.mk [c₀, c₁, c₂, c₃, c₄, c₅]) =
          ((16 * (v₀ : Int) + v₁, 16 * (v₂ : Int) + v₃,
            16 * (v₄ : Int) + v₅), false)) ∧
      (∀ c₀ c₁ c₂ v₀ v₁ v₂,
        hexDigitVal? c₀ = some v₀ → hexDigitVal? c₁ = some v₁ →
        hexDigitVal? c₂ = some v₂ →
        hex_to_rgb (String.mk [c₀, c₁, c₂]) =
          ((17 * (v₀ : Int), 17 * (v₁ : Int), 17 * (v₂ : Int)), false)) ∧
      (∀ s : String,
        hex_to_rgb (String.mk ('#' :: s.toList)) = hex_to_rgb s) ∧
      (∀ s : String,
        (s.toList.dropWhile (fun c => c == '#')).length ≠ 3 →
        (s.toList.dropWhile (fun c => c == '#')).length ≠ 6 →
        hex_to_rgb s = ((0, 0, 0), true)) ∧
      hex_to_rgb "#FFFFFF" = ((255, 255, 255), false) ∧
      hex_to_rgb "bad" = ((187, 170, 221), false) := by
  refine ⟨?_, ?_, ?_, ?_, by decide, by decide⟩
  · intro c₀ c₁ c₂ c₃ c₄ c₅ v₀ v₁ v₂ v₃ v₄ v₅ h₀ h₁ h₂ h₃ h₄ h₅
    have hc := hexDigitVal_ne_hash h₀
    simp [hex_to_rgb, parseSlices, pyIntHex2, List.dropWhile, hc,
      h₀, h₁, h₂, h₃, h₄, h₅]
  · intro c₀ c₁ c₂ v₀ v₁ v₂ h₀ h₁ h₂
    have hc := hexDigitVal_ne_hash h₀
    simp [hex_to_rgb, parseSlices, pyIntHex2, List.dropWhile, hc,
      h₀, h₁, h₂]
    refine ⟨?_, ?_, ?_⟩ <;> omega
  · intro s
    simp [hex_to_rgb, List.dropWhile]
  · intro s h3 h6
    have c3 : ¬((s.data.dropWhile (fun c => c == '#')).length = 3) := h3
    have c6 : ¬((s.data.dropWhile (fun c => c == '#')).length = 6) := h6
    simp [hex_to_rgb, c3, c6]

/-- Witness for C2: instantiating the amended theorem at `"FFFFFF"` and at
`"bad"`-style digits gives the concrete decodings. -/
theorem hex_to_rgb_spec_witness :
    hex_to_rgb (String.mk ['F', 'F', 'F', 'F', 'F', 'F']) =
      ((255, 255, 255), false) ∧
    hex_to_rgb (String.mk ['b', 'a', 'd']) =
      ((187, 170, 221), false) := by
  constructor
  · have h := hex_to_rgb_spec.1 'F' 'F' 'F' 'F' 'F' 'F'
      15 15 15 15 15 15 (by decide) (by decide) (by decide)
      (by decide) (by decide) (by decide)
    rw [h]
    norm_num
  · have h := hex_to_rgb_spec.2.1 'b' 'a' 'd' 11 10 13
      (by decide) (by decide) (by decide)
    rw [h]
    norm_num

/-- A delimited input file as read by `pd.read_csv`: the header row naming
the columns, and the data rows. -/
structure CsvFile where
  header : List String
  rows : List (List String)
  deriving DecidableEq, Repr

/-- The fragment of the file system that `load_employee_data` observes:
which path holds which CSV file (`os.path.exists` answers `isSome`). -/
def FileSystem : Type := String → Option CsvFile

/-- `required_columns` in `load_employee_data`. -/
def requiredColumns : List String :=
  ["first_name", "last_name", "email", "birthday"]

/-- The errors the body of `load_employee_data` raises: `FileNotFoundError`
(the spec's NotFound) and the `ValueError` on missing required columns (the
spec's SchemaError). -/
inductive LoadErr where
  | notFound (path : String)
  | schemaError (missing : List String)
  deriving DecidableEq, Repr

/-- The `try` body of `load_employee_data`: raise `FileNotFoundError` when
the path does not exist, read the file, and raise `ValueError` listing
`missing_columns` when any required column is absent from the header. (The
subsequent `pd.to_datetime(..., errors='coerce')` normalization never
raises; it is modelled at the record level by `EmployeeRecord`'s
`Option Date` fields.) -/
def load_body (fs : FileSystem) (path : String) : Except LoadErr CsvFile :=
  match fs path with
  | none => .error (.notFound path)
  | some f =>
    let missing := requiredColumns.filter (fun c => !(f.header.contains c))
    if missing.isEmpty then .ok f else .error (.schemaError missing)

/-- `load_employee_data` as its caller observes it: the surrounding
`except Exception` catches every error raised by the body, logs it via
`log_error`, and returns an empty `pd.DataFrame()` — so the caller-visible
result is always `.ok`, carrying the returned frame together with the list
of errors that were only logged. -/
def load_employee_data (fs : FileSystem) (path : String) :
    Except LoadErr (CsvFile × List LoadErr) :=
  match load_body fs path with
  | .ok f => .ok (f, [])
  | .error e => .ok (⟨[], []⟩, [e])

/-- C3 counterexample: on a file system with no file at `"employees.csv"`,
`load_employee_data` does not fail to its caller — it returns the empty
record sequence (with the `NotFound` error merely logged), contradicting
the claim that in a failure case no sequence of records is returned. -/
theorem load_missing_file_still_returns_records :
    (fun _ => (none : Option CsvFile)) "employees.csv" = none ∧
    load_employee_data (fun _ => none) "employees.csv" =
      .ok (⟨[], []⟩, [.notFound "employees.csv"]) :=
  ⟨rfl, rfl⟩

/-- C3 (amended): the body of `load_employee_data` does raise `NotFound`
for a missing file and `SchemaError` for missing required columns, but both
are caught inside the function itself: the caller always receives an `.ok`
result, in the failure cases an empty record sequence together with the
logged error — the failure is never propagated. -/
theorem load_employee_data_failure_modes (fs : FileSystem) (path : String) :
    (fs path = none →
      load_body fs path = .error (.notFound path) ∧
      load_employee_data fs path =
        .ok (⟨[], []⟩, [.notFound path])) ∧
    (∀ f, fs path = some f →
      requiredColumns.filter (fun c => !(f.header.contains c)) ≠ [] →
      load_body fs path = .error (.schemaError
        (requiredColumns.filter (fun c => !(f.header.contains c)))) ∧
      load_employee_data fs path = .ok (⟨[], []⟩,
        [.schemaError
          (requiredColumns.filter (fun c => !(f.header.contains c)))])) ∧
    (∀ e, load_employee_data fs path ≠ .error e) := by
  refine ⟨?_, ?_, ?_⟩
  · intro h
    have hb : load_body fs path = .error (.notFound path) := by
      rw [load_body, h]
    exact ⟨hb, by rw [load_employee_data, hb]⟩
  · intro f hf hmiss
    have hb : load_body fs path = .error (.schemaError
        (requiredColumns.filter (fun c => !(f.header.contains c)))) := by
      rw [load_body, hf]
      simp only [List.isEmpty_iff]
      rw [if_neg hmiss]
    exact ⟨hb, by rw [load_employee_data, hb]⟩
  · intro e
    rw [load_employee_data]
    cases load_body fs path <;> simp

/-- Witness for C3: a concrete file system where `"employees.csv"` is
missing and `"partial.csv"` lacks the `email` and `birthday` columns;
the theorem yields the concrete logged errors and empty results. -/
theorem load_employee_data_failure_modes_witness :
    let fs : FileSystem := fun p =>
      if p = "partial.csv" then some ⟨["first_name", "last_name"], []⟩
      else none
    load_employee_data fs "employees.csv" =
      .ok (⟨[], []⟩, [.notFound "employees.csv"]) ∧
    load_employee_data fs "partial.csv" =
      .ok (⟨[], []⟩, [.schemaError ["email", "birthday"]]) := by
  intro fs
  constructor
  · exact ((load_employee_data_failure_modes fs "employees.csv").1
      (by simp [fs])).2
  · have h := ((load_employee_data_failure_modes fs "partial.csv").2.1
      ⟨["first_name", "last_name"], []⟩ (by simp [fs]) (by decide)).2
    simpa using h

/-- A usable PIL font handle: a successfully loaded TrueType font at a
given size, or the built-in default bitmap font of
`ImageFont.load_default()`. -/
inductive FontHandle where
  | truetype (path : String) (size : Nat)
  | defaultFont
  deriving DecidableEq, Repr

/-- `font_paths`: the ordered, platform-spanning candidate list tried by
`add_text_to_image` when no custom font was loaded. -/
def font_paths : List String :=
  ["arial.ttf", "calibri.ttf", "times.ttf",
   "C:/Windows/Fonts/arial.ttf", "C:/Windows/Fonts/calibri.ttf",
   "C:/Windows/Fonts/times.ttf",
   "/System/Library/Fonts/Arial.ttf", "/System/Library/Fonts/Times.ttc",
   "/System/Library/Fonts/Helvetica.ttc",
   "/usr/share/fonts/truetype/dejavu/DejaVuSans.ttf",
   "/usr/share/fonts/truetype/dejavu/DejaVuSans-Bold.ttf",
   "/usr/share/fonts/truetype/liberation/LiberationSans-Regular.ttf"]

/-- The font-loading section of `add_text_to_image` (Options 1-3).
`loads p` says `ImageFont.truetype(p, size)` succeeds; `onDisk p` is
`os.path.exists(p)`. The custom path is tried first but only when it is on
disk (and a load failure there is caught); then each system candidate is
tried in order with failures skipped; `ImageFont.load_default()` is the
final fallback. -/
def resolveFont (loads onDisk : String → Bool) (customPath : Option String)
    (size : Nat) : FontHandle :=
  let custom : Option FontHandle :=
    match customPath with
    | some p => if onDisk p && loads p then some (.truetype p size) else none
    | none => none
  match custom with
  | some f => f
  | none =>
    match font_paths.find? loads with
    | some p => FontHandle.truetype p size
    | none => FontHandle.defaultFont

/-- C8: font resolution is total and always yields a usable handle: the
custom path wins when present on disk and loadable; otherwise the first
loadable candidate of the ordered `font_paths` list is used; when
everything fails (in particular with no custom path and no loadable
candidate) the built-in default font is returned; and every non-default
result is a loadable TrueType font. -/
theorem resolveFont_fallback_chain (loads onDisk : String → Bool)
    (customPath : Option String) (size : Nat) :
    (∀ p, customPath = some p → onDisk p = true → loads p = true →
      resolveFont loads onDisk customPath size = .truetype p size) ∧
    ((∀ p, customPath = some p → (onDisk p && loads p) = false) →
      (∀ q, font_paths.find? loads = some q →
        resolveFont loads onDisk customPath size = .truetype q size) ∧
      (font_paths.find? loads = none →
        resolveFont loads onDisk customPath size = .defaultFont)) ∧
    ((∀ q, loads q = false) →
      resolveFont loads onDisk customPath size = .defaultFont) ∧
    (resolveFont loads onDisk customPath size = .defaultFont ∨
      ∃ p, resolveFont loads onDisk customPath size = .truetype p size ∧
        loads p = true) := by
  have hfind : ∀ q, font_paths.find? loads = some q → loads q = true :=
    fun q hq => List.find?_some hq
  refine ⟨?_, ?_, ?_, ?_⟩
  · intro p hp hd hl
    subst hp
    simp [resolveFont, hd, hl]
  · intro hcust
    constructor
    · intro q hq
      cases hcp : customPath with
      | none => simp [resolveFont, hq]
      | some p =>
        have := hcust p hcp
        simp [resolveFont, this, hq]
    · intro hq
      cases hcp : customPath with
      | none => simp [resolveFont, hq]
      | some p =>
        have := hcust p hcp
        simp [resolveFont, this, hq]
  · intro hall
    have hnone : font_paths.find? loads = none := by
      rw [List.find?_eq_none]
      intro q _
      simp [hall q]
    cases hcp : customPath with
    | none => simp [resolveFont, hnone]
    | some p => simp [resolveFont, hall p, hnone]
  · cases hcp : customPath with
    | none =>
      cases hq : font_paths.find? loads with
      | none => left; simp [resolveFont, hq]
      | some q => right; exact ⟨q, by simp [resolveFont, hq], hfind q hq⟩
    | some p =>
      cases hpl : onDisk p && loads p with
      | false =>
        cases hq : font_paths.find? loads with
        | none => left; simp [resolveFont, hpl, hq]
        | some q =>
          right
          exact ⟨q, by simp [resolveFont, hpl, hq], hfind q hq⟩
      | true =>
        right
        refine ⟨p, by simp [resolveFont, hpl], ?_⟩
        simp only [Bool.and_eq_true] at hpl
        exact hpl.2

/-- Witness for C8: with only `"times.ttf"` loadable and no custom font the
third candidate wins; with nothing loadable the default font is returned;
with a loadable on-disk custom font the custom font wins. -/
theorem resolveFont_fallback_chain_witness :
    resolveFont (fun p => p == "times.ttf") (fun _ => false) none 40 =
      .truetype "times.ttf" 40 ∧
    resolveFont (fun _ => false) (fun _ => false) none 40 = .defaultFont ∧
    resolveFont (fun p => p == "my.ttf") (fun p => p == "my.ttf")
      (some "my.ttf") 40 = .truetype "my.ttf" 40 := by
  refine ⟨?_, ?_, ?_⟩
  · exact ((resolveFont_fallback_chain (fun p => p == "times.ttf")
      (fun _ => false) none 40).2.1 (by intro p hp; cases hp)).1
      "times.ttf" (by decide)
  · exact (resolveFont_fallback_chain (fun _ => false)
      (fun _ => false) none 40).2.2.1 (fun _ => rfl)
  · exact (resolveFont_fallback_chain (fun p => p == "my.ttf")
      (fun p => p == "my.ttf") (some "my.ttf") 40).1 "my.ttf" rfl
      (by decide) (by decide)

/-- A pixel position as passed to `add_text_to_image`; PIL accepts signed
coordinates. -/
structure Pos where
  x : Int
  y : Int
  deriving DecidableEq, Repr

/-- One `draw.text(...)` call issued by `add_text_to_image`: anchor
coordinates and the string drawn there. -/
structure DrawCall where
  x : Int
  y : Int
  line : String
  deriving DecidableEq, Repr

/-- Python `text.split('\n')`: split at every newline, keeping empty
segments (structural, so that it evaluates inside the kernel). -/
def splitLines (text : String) : List String :=
  (text.toList.foldr
    (fun c acc =>
      match acc with
      | [] => [[c]]
      | l :: ls => if c = '\n' then [] :: l :: ls else (c :: l) :: ls)
    [[]]).map String.mk

/-- The text-positioning logic of `add_text_to_image`, parameterized by the
measured text width `measure` (PIL `draw.textlength`) and the template
dimensions; it returns the `draw.text` calls in issue order. Python `//` is
floor division, `Int.fdiv`. -/
def add_text_to_image_draws (measure : String → Int) (imgW imgH : Int)
    (text : String) (position : Pos) (font_size : Int)
    (center_align multiline : Bool) : List DrawCall :=
  if center_align then
    if multiline then
      let lines := splitLines text
      let line_height := font_size + 10
      let total_text_height := (lines.length : Int) * line_height
      let start_y := if position.y > 0 then position.y
        else (imgH - total_text_height).fdiv 2
      lines.enum.map (fun p =>
        ⟨(imgW - measure p.2).fdiv 2, start_y + (p.1 : Int) * line_height,
          p.2⟩)
    else
      [⟨(imgW - measure text).fdiv 2, position.y, text⟩]
  else
    [⟨position.x, position.y, text⟩]

/-- C7: with `center_align` set, single-line text is drawn once at
`x = (imgW − measure text) // 2`, `y = position.y`, with `position.x`
ignored in both modes; multi-line text is split on the line-break marker,
`line_height = font_size + 10`, `total_height = lineCount · line_height`,
`start_y = position.y` if positive else `(imgH − total_height) // 2`, and
line `i` is drawn horizontally centered at `y = start_y + i · line_height`. -/
theorem center_align_layout (measure : String → Int) (imgW imgH : Int)
    (text : String) (pos : Pos) (font_size : Int) :
    (add_text_to_image_draws measure imgW imgH text pos font_size true false
      = [⟨(imgW - measure text).fdiv 2, pos.y, text⟩]) ∧
    (∀ x₁ x₂ y m,
      add_text_to_image_draws measure imgW imgH text ⟨x₁, y⟩ font_size true m
        = add_text_to_image_draws measure imgW imgH text ⟨x₂, y⟩ font_size
            true m) ∧
    ((add_text_to_image_draws measure imgW imgH text pos font_size true
        true).length = (splitLines text).length) ∧
    (∀ (i : Nat) (line : String), (splitLines text)[i]? = some line →
      (add_text_to_image_draws measure imgW imgH text pos font_size true
        true)[i]? = some
        ⟨(imgW - measure line).fdiv 2,
          (if pos.y > 0 then pos.y
           else (imgH - ((splitLines text).length : Int) *
             (font_size + 10)).fdiv 2) + (i : Int) * (font_size + 10),
          line⟩) := by
  refine ⟨rfl, ?_, ?_, ?_⟩
  · intro x₁ x₂ y m
    cases m <;> rfl
  · simp [add_text_to_image_draws]
  · intro i line h
    simp only [add_text_to_image_draws, if_true]
    rw [List.getElem?_map, List.getElem?_enum, h]
    rfl

/-- Witness for C7: the anniversary layout `"Happy Anniversary\nJohn"` on a
1280×720 card at `position = (0, 300)`, `font_size = 40`, with a width
measure of 10 pixels per character: line 0 is drawn at (555, 300) and line
1 ("John") at (620, 350). -/
theorem center_align_layout_witness :
    (add_text_to_image_draws (fun s => (s.length : Int) * 10) 1280 720
      "Happy Anniversary\nJohn" ⟨0, 300⟩ 40 true true)[0]? =
      some ⟨555, 300, "Happy Anniversary"⟩ ∧
    (add_text_to_image_draws (fun s => (s.length : Int) * 10) 1280 720
      "Happy Anniversary\nJohn" ⟨0, 300⟩ 40 true true)[1]? =
      some ⟨620, 350, "John"⟩ := by
  constructor
  · have h := (center_align_layout (fun s => (s.length : Int) * 10) 1280 720
      "Happy Anniversary\nJohn" ⟨0, 300⟩ 40).2.2.2 0 "Happy Anniversary"
      (by decide)
    rw [h]
    decide
  · have h := (center_align_layout (fun s => (s.length : Int) * 10) 1280 720
      "Happy Anniversary\nJohn" ⟨0, 300⟩ 40).2.2.2 1 "John" (by decide)
    rw [h]
    decide

/-- C10: with `center_align` unset, the whole text — line-break marker
included — is drawn verbatim in a single `draw.text` call at the given
position, whatever the `multiline` flag says: splitting and centering run
only under `center_align`. -/
theorem no_center_align_draws_verbatim (measure : String → Int)
    (imgW imgH : Int) (text : String) (pos : Pos) (font_size : Int)
    (multiline : Bool) :
    add_text_to_image_draws measure imgW imgH text pos font_size false
      multiline = [⟨pos.x, pos.y, text⟩] := by
  rfl

/-- Outcome of handling one matched event inside the batch loop of
`check_and_send_birthday_emails` / `check_and_send_anniversary_emails`:
`renderFailed` — `add_text_to_image` caught an exception (for instance the
`FileNotFoundError` of a missing template), logged it, and returned
`(None, None)`; `sendFailed` — an image was produced but `send_email`
returned `False` (message-building failure or an SMTP error, logged
inside); `sendSucceeded` — the email went out; `raised msg` — an exception
escaped the rendering/sending steps and was caught by the per-event
`except` handler. -/
inductive EventOutcome where
  | renderFailed
  | sendFailed
  | sendSucceeded
  | raised (msg : String)
  deriving DecidableEq, Repr

/-- Whether the outcome takes one of the failure branches of the loop
body. -/
def isFailure (o : EventOutcome) : Bool :=
  match o with
  | .sendSucceeded => false
  | _ => true

/-- One category's slice of `self.stats`: the `*_emails_sent` and
`*_emails_failed` counters, the logged `errors` entries, and the
`*_today` matched-event list. -/
structure RunStats where
  sent : Nat
  failed : Nat
  errors : List String
  matchedToday : List String
  deriving DecidableEq, Repr

/-- The loop body of `check_and_send_birthday_emails` (and the anniversary
analogue) for one matched employee: append the employee to the
`*_today` list, then depending on the outcome increment `sent`, or
increment `failed` and log — `renderFailed` logs twice (once inside
`add_text_to_image`, once at the loop level), `sendFailed` logs inside
`send_email` / `create_email_message`, and a caught exception is logged by
the `except` handler. -/
def processEvent (s : RunStats) (name : String) (o : EventOutcome) :
    RunStats :=
  let s1 := { s with matchedToday := s.matchedToday ++ [name] }
  match o with
  | .sendSucceeded => { s1 with sent := s1.sent + 1 }
  | .sendFailed =>
      { s1 with
        failed := s1.failed + 1
        errors := s1.errors ++ ["Error sending email to " ++ name] }
  | .renderFailed =>
      { s1 with
        failed := s1.failed + 1
        errors := s1.errors ++ ["Error processing image",
          "Failed to create personalized image for " ++ name] }
  | .raised msg =>
      { s1 with failed := s1.failed + 1, errors := s1.errors ++ [msg] }

/-- The batch loop `for _, employee in ..._employees.iterrows()` together
with its per-event `try`/`except`: a left fold that consumes every matched
event. -/
def processBatch (s : RunStats) (events : List (String × EventOutcome)) :
    RunStats :=
  events.foldl (fun acc e => processEvent acc e.1 e.2) s

theorem processEvent_matchedToday (s : RunStats) (name : String)
    (o : EventOutcome) :
    (processEvent s name o).matchedToday = s.matchedToday ++ [name] := by
  cases o <;> simp [processEvent]

theorem processEvent_failed_eq (s : RunStats) (name : String)
    (o : EventOutcome) :
    (processEvent s name o).failed =
      s.failed + (if isFailure o then 1 else 0) := by
  cases o <;> simp [processEvent, isFailure]

theorem processEvent_sent_eq (s : RunStats) (name : String)
    (o : EventOutcome) :
    (processEvent s name o).sent =
      s.sent + (if isFailure o then 0 else 1) := by
  cases o <;> simp [processEvent, isFailure]

theorem processEvent_errors_append (s : RunStats) (name : String)
    (o : EventOutcome) :
    ∃ t, (processEvent s name o).errors = s.errors ++ t ∧
      (isFailure o = true → t ≠ []) := by
  cases o with
  | renderFailed =>
    exact ⟨["Error processing image",
      "Failed to create personalized image for " ++ name],
      by simp [processEvent], fun _ => by simp⟩
  | sendFailed => exact ⟨["Error sending email to " ++ name],
      by simp [processEvent], fun _ => by simp⟩
  | sendSucceeded => exact ⟨[], by simp [processEvent], by simp [isFailure]⟩
  | raised msg => exact ⟨[msg], by simp [processEvent], fun _ => by simp⟩

theorem length_filter_not_add_length_filter
    (events : List (String × EventOutcome)) :
    (events.filter (fun e => !(isFailure e.2))).length +
      (events.filter (fun e => isFailure e.2)).length = events.length := by
  induction events with
  | nil => rfl
  | cons e rest ih =>
    rw [List.filter_cons, List.filter_cons]
    by_cases hf : isFailure e.2 = true
    · simp [hf]
      omega
    · simp only [Bool.not_eq_true] at hf
      simp [hf]
      omega

theorem processBatch_matchedToday (s : RunStats)
    (events : List (String × EventOutcome)) :
    (processBatch s events).matchedToday =
      s.matchedToday ++ events.map Prod.fst := by
  induction events generalizing s with
  | nil => simp [processBatch]
  | cons e rest ih =>
    show (processBatch (processEvent s e.1 e.2) rest).matchedToday = _
    rw [ih, processEvent_matchedToday, List.append_assoc]
    rfl

theorem processBatch_failed_eq (s : RunStats)
    (events : List (String × EventOutcome)) :
    (processBatch s events).failed =
      s.failed + (events.filter (fun e => isFailure e.2)).length := by
  induction events generalizing s with
  | nil => simp [processBatch]
  | cons e rest ih =>
    show (processBatch (processEvent s e.1 e.2) rest).failed = _
    rw [ih, processEvent_failed_eq, List.filter_cons]
    by_cases hf : isFailure e.2 = true
    · simp [hf]
      omega
    · simp [hf]

theorem processBatch_sent_eq (s : RunStats)
    (events : List (String × EventOutcome)) :
    (processBatch s events).sent =
      s.sent + (events.filter (fun e => !(isFailure e.2))).length := by
  induction events generalizing s with
  | nil => simp [processBatch]
  | cons e rest ih =>
    show (processBatch (processEvent s e.1 e.2) rest).sent = _
    rw [ih, processEvent_sent_eq, List.filter_cons]
    by_cases hf : isFailure e.2 = true
    · simp [hf]
    · simp [hf]
      omega

theorem processBatch_errors_append (s : RunStats)
    (events : List (String × EventOutcome)) :
    ∃ t, (processBatch s events).errors = s.errors ++ t := by
  induction events generalizing s with
  | nil => exact ⟨[], by simp [processBatch]⟩
  | cons e rest ih =>
    obtain ⟨t2, ht2⟩ := ih (processEvent s e.1 e.2)
    obtain ⟨t1, ht1, _⟩ := processEvent_errors_append s e.1 e.2
    refine ⟨t1 ++ t2, ?_⟩
    show (processBatch (processEvent s e.1 e.2) rest).errors = _
    rw [ht2, ht1, List.append_assoc]

/-- C4: every recoverable per-event failure (render failure such as a
missing template, send failure, or an exception caught by the per-event
handler) increments that category's failed counter by one and appends at
least one entry to the run's error log, while the batch loop still
processes every remaining event: the whole matched list is consumed and
the error log only grows. -/
theorem per_event_failures_are_contained (s : RunStats)
    (events : List (String × EventOutcome)) :
    (∀ name o, isFailure o = true →
      (processEvent s name o).failed = s.failed + 1 ∧
      ∃ t, t ≠ [] ∧ (processEvent s name o).errors = s.errors ++ t) ∧
    ((processBatch s events).matchedToday =
      s.matchedToday ++ events.map Prod.fst) ∧
    ((processBatch s events).failed =
      s.failed + (events.filter (fun e => isFailure e.2)).length) ∧
    (∃ t, (processBatch s events).errors = s.errors ++ t) := by
  refine ⟨?_, processBatch_matchedToday s events,
    processBatch_failed_eq s events, processBatch_errors_append s events⟩
  intro name o hf
  constructor
  · rw [processEvent_failed_eq, hf]
    simp
  · obtain ⟨t, ht, hne⟩ := processEvent_errors_append s name o
    exact ⟨t, hne hf, ht⟩

/-- Witness for C4: a concrete batch — one success, one render failure
(missing template) and one raised exception — ends with `failed = 2`, all
three employees processed in order, and two error-log extensions. -/
theorem per_event_failures_are_contained_witness :
    (processBatch ⟨0, 0, [], []⟩
      [("John", .sendSucceeded), ("Jane", .renderFailed),
        ("Bob", .raised "boom")]).failed = 0 + 2 ∧
    (processBatch ⟨0, 0, [], []⟩
      [("John", .sendSucceeded), ("Jane", .renderFailed),
        ("Bob", .raised "boom")]).matchedToday =
      ["John", "Jane", "Bob"] ∧
    (processEvent ⟨0, 0, [], []⟩ "Jane" .renderFailed).failed = 0 + 1 := by
  refine ⟨?_, ?_, ?_⟩
  · rw [(per_event_failures_are_contained ⟨0, 0, [], []⟩
      [("John", .sendSucceeded), ("Jane", .renderFailed),
        ("Bob", .raised "boom")]).2.2.1]
    decide
  · rw [(per_event_failures_are_contained ⟨0, 0, [], []⟩
      [("John", .sendSucceeded), ("Jane", .renderFailed),
        ("Bob", .raised "boom")]).2.1]
    decide
  · exact ((per_event_failures_are_contained ⟨0, 0, [], []⟩ []).1
      "Jane" .renderFailed (by decide)).1

/-- C9: each loop iteration increments exactly one of the category's sent
or failed counters by exactly one, whatever the outcome; across a pass the
counters never decrease, and afterwards `sent + failed` has grown by
exactly the number of matched employees processed. -/
theorem sent_failed_partition_processed_events (s : RunStats)
    (events : List (String × EventOutcome)) (name : String)
    (o : EventOutcome) :
    (((processEvent s name o).sent = s.sent + 1 ∧
      (processEvent s name o).failed = s.failed) ∨
     ((processEvent s name o).sent = s.sent ∧
      (processEvent s name o).failed = s.failed + 1)) ∧
    s.sent ≤ (processBatch s events).sent ∧
    s.failed ≤ (processBatch s events).failed ∧
    (processBatch s events).sent + (processBatch s events).failed =
      s.sent + s.failed + events.length := by
  refine ⟨?_, ?_, ?_, ?_⟩
  · rw [processEvent_sent_eq, processEvent_failed_eq]
    by_cases hf : isFailure o = true
    · right; simp [hf]
    · left; simp [hf]
  · rw [processBatch_sent_eq]
    omega
  · rw [processBatch_failed_eq]
    omega
  · rw [processBatch_sent_eq, processBatch_failed_eq]
    have h2 := length_filter_not_add_length_filter events
    omega

end AutomatedEmail
